import Mathlib

/-!
Verification development for the `oeis-tools` repository.

The Python sources (`src/oeis_tools/utils.py`, `bfile.py`, `sequence.py`) are
shallowly embedded below.  Python strings are modelled as `List Char` / `String`
over the ASCII range (the repository only ever manipulates ASCII identifiers,
URLs and numeric listings); Python's arbitrary-precision `int` is `Int`;
functions that can raise return `Option` / `Except`; the network body handed to
`requests.get(...).text` is modelled as an `Option String` argument
(`none` = transport failure, i.e. `requests.RequestException`).
-/

namespace OeisTools

/-- The whitespace characters recognised by Python's `str.strip()` /
`str.split()` within the ASCII range (space, tab, LF, CR, VT, FF). -/
def pyWs (c : Char) : Bool :=
  c == ' ' || c == '\t' || c == '\n' || c == '\r' ||
  c == Char.ofNat 11 || c == Char.ofNat 12

/-- Python `str.strip()` on a list of characters. -/
def pyStrip (cs : List Char) : List Char :=
  ((cs.dropWhile pyWs).reverse.dropWhile pyWs).reverse

/-- Worker for `pySplit`: accumulates the current token (reversed) while
scanning. -/
def pySplitAux : List Char → List Char → List (List Char)
  | [], acc => if acc.isEmpty then [] else [acc.reverse]
  | c :: rest, acc =>
    if pyWs c then
      if acc.isEmpty then pySplitAux rest []
      else acc.reverse :: pySplitAux rest []
    else pySplitAux rest (c :: acc)

/-- Python `str.split()` with no arguments: split on runs of whitespace,
discarding leading and trailing whitespace. -/
def pySplit (cs : List Char) : List (List Char) :=
  pySplitAux cs []

/-- Worker for `pySplitlines`: accumulates the current line (reversed).
`\r\n` counts as a single line boundary, as in Python. -/
def pySplitlinesAux : List Char → List Char → List (List Char)
  | [], acc => [acc.reverse]
  | '\r' :: '\n' :: rest, acc =>
    acc.reverse :: (if rest.isEmpty then [] else pySplitlinesAux rest [])
  | '\r' :: rest, acc =>
    acc.reverse :: (if rest.isEmpty then [] else pySplitlinesAux rest [])
  | '\n' :: rest, acc =>
    acc.reverse :: (if rest.isEmpty then [] else pySplitlinesAux rest [])
  | c :: rest, acc => pySplitlinesAux rest (c :: acc)

/-- Python `str.splitlines()` restricted to the ASCII line boundaries
(`\n`, `\r`, `\r\n`): no trailing empty line for a terminated text, and the
empty string yields no lines. -/
def pySplitlines (cs : List Char) : List (List Char) :=
  if cs.isEmpty then [] else pySplitlinesAux cs []

/-- Digit-run acceptor for Python `int(...)`: after the first digit, single
underscores are allowed between digits (`int("1_0") = 10`, while `int("1__0")`
and `int("1_")` raise `ValueError`). -/
def pyDigitsRest : List Char → Bool
  | [] => true
  | '_' :: c :: rest => c.isDigit && pyDigitsRest rest
  | ['_'] => false
  | c :: rest => c.isDigit && pyDigitsRest rest

/-- Nonempty digit run, optionally with single underscores between digits. -/
def pyDigits : List Char → Bool
  | [] => false
  | c :: rest => c.isDigit && pyDigitsRest rest

/-- Numeric value of a digit/underscore run (underscores skipped). -/
def pyDigitsVal (cs : List Char) : Nat :=
  (cs.filter (fun c => c != '_')).foldl (fun n c => 10 * n + (c.toNat - 48)) 0

/-- Python `int(token)` on an already-whitespace-free ASCII token: an optional
sign followed by digits (single underscores allowed between digits);
`none` models the `ValueError` raised on anything else. -/
def pyInt? : List Char → Option Int
  | '+' :: rest => if pyDigits rest then some (Int.ofNat (pyDigitsVal rest)) else none
  | '-' :: rest => if pyDigits rest then some (-(Int.ofNat (pyDigitsVal rest))) else none
  | cs => if pyDigits cs then some (Int.ofNat (pyDigitsVal cs)) else none

/-! ## `utils.py` -/

/-- End-of-pattern acceptor for `$` in Python's `re` (without `re.MULTILINE`):
`$` matches at the end of the string, or just before a newline that is the
last character of the string. -/
def reDollar (cs : List Char) : Bool :=
  cs.isEmpty || cs == ['\n']

/-- Accepts `n` decimal digits followed by a `$`-position.  Models `\d` over
the ASCII digits (the repository's identifiers are ASCII). -/
def reDigitsThenEnd : Nat → List Char → Bool
  | 0, rest => reDollar rest
  | _ + 1, [] => false
  | n + 1, c :: rest => c.isDigit && reDigitsThenEnd n rest

/-- `utils.check_id`: `bool(re.match(r'^A\d{6}$', oeis_id))`.  Note that in
Python `$` also matches just before a single trailing newline. -/
def check_id (s : String) : Bool :=
  match s.data with
  | c :: rest => c == 'A' && reDigitsThenEnd 6 rest
  | [] => false

/-- `utils.OEIS_URL`. -/
def OEIS_URL : String := "https://oeis.org"

/-- `utils.oeis_bfile`: the b-file filename `"b" + oeis_id[1:] + ".txt"`;
`none` models the `ValueError` raised when `check_id` fails. -/
def oeis_bfile (oeis_id : String) : Option String :=
  if check_id oeis_id then
    some ("b" ++ String.mk (oeis_id.data.drop 1) ++ ".txt")
  else none

/-- `utils.oeis_url`: the format-selector dictionary.  The dictionary literal
computes the b-file entry eagerly, so an invalid identifier raises
(`none`) for every selector; `formats.get(fmt, formats[None])` sends every
unknown selector to the default webpage URL. -/
def oeis_url (oeis_id : String) (fmt : Option String) : Option String :=
  (oeis_bfile oeis_id).map fun bf =>
    if fmt == some "json" then OEIS_URL ++ "/search?q=id:" ++ oeis_id ++ "&fmt=json"
    else if fmt == some "text" then OEIS_URL ++ "/search?q=id:" ++ oeis_id ++ "&fmt=text"
    else if fmt == some "bfile" then OEIS_URL ++ "/" ++ oeis_id ++ "/" ++ bf
    else if fmt == some "graph" then OEIS_URL ++ "/" ++ oeis_id ++ "/graph?png=1"
    else OEIS_URL ++ "/" ++ oeis_id

/-! ## `bfile.py` -/

/-- A line survives `BFile.fetch_bfile_data`'s
`if not line or line.startswith("#"): continue` filter (after `line.strip()`). -/
def lineRelevant (l : List Char) : Bool :=
  let s := pyStrip l
  !(s.isEmpty || s.headD ' ' == '#')

/-- One loop iteration of `BFile.fetch_bfile_data` on a relevant line:
`index, value, *_ = line.split()` followed by `int(index)`, `int(value)`.
`none` models the caught `(ValueError, IndexError)`. -/
def lineParse (l : List Char) : Option (Int × Int) :=
  match pySplit (pyStrip l) with
  | i :: v :: _ =>
    match pyInt? i, pyInt? v with
    | some iv, some vv => some (iv, vv)
    | _, _ => none
  | _ => none

/-- The parsing loop of `BFile.fetch_bfile_data` over the split lines,
returning `(indices, data)`; any failing line makes the whole result `none`
(in the source: `self.indices = None; return None`, discarding the local
accumulator lists). -/
def parseBFileLines : List (List Char) → Option (List Int × List Int)
  | [] => some ([], [])
  | l :: rest =>
    if lineRelevant l then
      match lineParse l with
      | some (iv, vv) =>
        match parseBFileLines rest with
        | some (idxs, vals) => some (iv :: idxs, vv :: vals)
        | none => none
      | none => none
    else parseBFileLines rest

/-- `BFile.fetch_bfile_data`: `body = none` models a transport failure
(`requests.RequestException` or a non-success HTTP status), which returns
`None`; otherwise `response.text.splitlines()` is parsed.  The pair is
`(indices, data)`: in the source both are `None` exactly when this is
`none`. -/
def fetch_bfile_data (body : Option String) : Option (List Int × List Int) :=
  match body with
  | none => none
  | some text => parseBFileLines (pySplitlines text.data)

/-- The state of a constructed `BFile` object (`BFile.__init__`). -/
structure BFile where
  oeis_id : String
  filename : String
  url : String
  indices : Option (List Int)
  data : Option (List Int)
deriving DecidableEq

/-- `BFile.__init__` given the fetched b-file body (`none` = transport
failure).  The outer `none` models the `ValueError` propagated from
`oeis_bfile` on an invalid identifier. -/
def mkBFile (oeis_id : String) (body : Option String) : Option BFile :=
  match oeis_bfile oeis_id, oeis_url oeis_id (some "bfile") with
  | some fn, some u =>
    let parsed := fetch_bfile_data body
    some ⟨oeis_id, fn, u, parsed.map Prod.fst, parsed.map Prod.snd⟩
  | _, _ => none

/-- The exact integer value of `sys.float_info.max`,
`(2^53 - 1) * 2^971 = 1.7976931348623157e308` (stated as a literal so that
kernel evaluation need not unfold the power; `floatInfoMax_eq` certifies it).
Python compares `int` to `float` exactly, so `abs(value) > sys.float_info.max`
is this integer comparison. -/
def floatInfoMax : Int := 179769313486231570814527423731704356798070567525844996598917476803157260780028538760589558632766878171540458953514382464234321326889464182768467546703537516986049910576551282076245490090389328944075868508455133942304583236903222948165808559332123348274797826204144723168738177180919299881250404026184124858368

/-- `floatInfoMax` is `(2^53 - 1) * 2^971`, the largest finite IEEE-754
double. -/
theorem floatInfoMax_eq : floatInfoMax = (2 ^ 53 - 1) * 2 ^ 971 := by
  norm_num [floatInfoMax]

/-- The `n` argument of `BFile.plot_data`: `None`, a Python `int`, or a value
of any other type (e.g. the string `"2"`). -/
inductive NArg where
  | noneN : NArg
  | intN : Int → NArg
  | otherN : NArg
deriving DecidableEq

/-- The exceptions `BFile.plot_data` can raise from its input checks:
`ValueError("No b-file data available to plot.")`, `TypeError` for a
non-integer `n`, `ValueError` for a negative `n`.  (The `ImportError` for a
missing plotting backend is an external concern and not modelled.) -/
inductive PlotErr where
  | noData : PlotErr
  | typeErr : PlotErr
  | valueErr : PlotErr
deriving DecidableEq

/-- Decidable equality for `Except`, used to evaluate `plot_data` results on
concrete inputs. -/
instance {ε α : Type} [DecidableEq ε] [DecidableEq α] : DecidableEq (Except ε α) := fun a b =>
  match a, b with
  | .error e, .error f =>
    decidable_of_iff (e = f) ⟨fun h => by rw [h], fun h => by cases h; rfl⟩
  | .ok x, .ok y =>
    decidable_of_iff (x = y) ⟨fun h => by rw [h], fun h => by cases h; rfl⟩
  | .error _, .ok _ => isFalse fun h => Except.noConfusion h
  | .ok _, .error _ => isFalse fun h => Except.noConfusion h

/-- The `(x, y)` pairs handed to `ax.plot` by `BFile.plot_data` before the
log-magnitude y-transform, for values `vs`, parsed indices `idx` and
truncation `k` (`none` = plot everything): `use_bfile_indices` is
`bool(indices) and len(indices) == len(values)` over the FULL value list. -/
def plotPairs (vs : List Int) (idx : Option (List Int)) (k : Option Nat) :
    List (Int × Int) :=
  let plotValues := match k with | none => vs | some m => vs.take m
  let useIdx := match idx with
    | some is => !is.isEmpty && is.length == vs.length
    | none => false
  let xValues : List Int :=
    if useIdx then
      match idx with
      | some is => match k with | none => is | some m => is.take m
      | none => []
    else (List.range plotValues.length).map Int.ofNat
  xValues.zip plotValues

/-- `use_log_magnitude`: `any(abs(value) > sys.float_info.max for value in
plot_values)`. -/
def useLogMagnitude (plotValues : List Int) : Bool :=
  plotValues.any fun v => floatInfoMax < |v|

/-- `BFile.plot_data` up to the plotting backend: returns the plotted
`(x, y)` pairs (y before the log-magnitude float transform) together with the
mode flag `use_log_magnitude` (which selects the distinct title and axis
labels), or the raised exception.  The checks happen in source order: the
no-data check precedes the validation of `n`. -/
def plot_data (values : Option (List Int)) (idx : Option (List Int)) (n : NArg) :
    Except PlotErr (List (Int × Int) × Bool) :=
  match values with
  | none => .error .noData
  | some vs =>
    if vs.isEmpty then .error .noData
    else
      match n with
      | .otherN => .error .typeErr
      | .intN i =>
        if i < 0 then .error .valueErr
        else .ok (plotPairs vs idx (some i.toNat), useLogMagnitude (vs.take i.toNat))
      | .noneN => .ok (plotPairs vs idx none, useLogMagnitude vs)

/-! ## `sequence.py` -/

/-- Python `min(data)` for a nonempty list, `None` for the empty case. -/
def listMin : List Int → Option Int
  | [] => none
  | x :: xs => some (xs.foldl min x)

/-- Python `max(data)` for a nonempty list, `None` for the empty case. -/
def listMax : List Int → Option Int
  | [] => none
  | x :: xs => some (xs.foldl max x)

/-- The dictionary returned by `Sequence.get_bfile_info`. -/
structure BFileInfo where
  available : Bool
  filename : Option String
  url : Option String
  length : Nat
  first : Option Int
  last : Option Int
  min : Option Int
  max : Option Int
deriving DecidableEq

/-- `Sequence.get_bfile_info`.  `Sequence.__init__` always sets
`self.bfile = BFile(self.id)`, so the `if self.bfile else None` guards are
taken with a real `BFile` object: `filename` and `url` come from it in both
branches. -/
def get_bfile_info (b : BFile) : BFileInfo :=
  match b.data with
  | none =>
    { available := false, filename := some b.filename, url := some b.url,
      length := 0, first := none, last := none, min := none, max := none }
  | some data =>
    { available := true, filename := some b.filename, url := some b.url,
      length := data.length, first := data.head?, last := data.getLast?,
      min := listMin data, max := listMax data }

/-- Two ASCII decimal digits read as a number, returning the rest of the
input. -/
def digit2? : List Char → Option (Nat × List Char)
  | a :: b :: rest =>
    if a.isDigit && b.isDigit then
      some ((a.toNat - 48) * 10 + (b.toNat - 48), rest)
    else none
  | _ => none

/-- Numeric value of a pure digit run. -/
def digitsVal (cs : List Char) : Nat :=
  cs.foldl (fun n c => 10 * n + (c.toNat - 48)) 0

/-- CPython's `_parse_hh_mm_ss_ff` (Python 3.7–3.10 `datetime`): accepts
`HH[:MM[:SS[.fff[fff]]]]` spanning the whole input, with digit-formed
components, returning `(hh, mm, ss, microseconds)`. -/
def hhmmssff? (cs : List Char) : Option (Nat × Nat × Nat × Nat) :=
  match digit2? cs with
  | none => none
  | some (hh, rest) =>
    match rest with
    | [] => some (hh, 0, 0, 0)
    | ':' :: r2 =>
      match digit2? r2 with
      | none => none
      | some (mm, rest2) =>
        match rest2 with
        | [] => some (hh, mm, 0, 0)
        | ':' :: r3 =>
          match digit2? r3 with
          | none => none
          | some (ss, rest3) =>
            match rest3 with
            | [] => some (hh, mm, ss, 0)
            | '.' :: fr =>
              if fr.all Char.isDigit then
                if fr.length == 3 then some (hh, mm, ss, digitsVal fr * 1000)
                else if fr.length == 6 then some (hh, mm, ss, digitsVal fr)
                else none
              else none
            | _ => none
        | _ => none
    | _ => none

/-- Whether `y` is a Gregorian leap year (`calendar`-style rule used by
`datetime`). -/
def isLeap (y : Nat) : Bool :=
  y % 4 == 0 && (y % 100 != 0 || y % 400 == 0)

/-- Days in month `m` of year `y` as validated by the `datetime`
constructor. -/
def daysInMonth (y m : Nat) : Nat :=
  if m == 2 then (if isLeap y then 29 else 28)
  else if m == 4 || m == 6 || m == 9 || m == 11 then 30
  else 31

/-- CPython's `_parse_isoformat_date` followed by the `datetime` constructor's
range validation: exactly `YYYY-MM-DD` with digit-formed components, year at
least 1, month 1–12, day within the month. -/
def isoDateOk : List Char → Bool
  | [y1, y2, y3, y4, s1, m1, m2, s2, d1, d2] =>
    s1 == '-' && s2 == '-' &&
    ([y1, y2, y3, y4, m1, m2, d1, d2].all Char.isDigit) &&
    (let y := digitsVal [y1, y2, y3, y4]
     let m := digitsVal [m1, m2]
     let d := digitsVal [d1, d2]
     1 ≤ y && 1 ≤ m && m ≤ 12 && 1 ≤ d && d ≤ daysInMonth y m)
  | _ => false

/-- Split at the first occurrence of `c`, dropping it, or `none` when `c` is
absent (models Python `str.find`-based splitting). -/
def splitAtFirst (c : Char) : List Char → Option (List Char × List Char)
  | [] => none
  | x :: rest =>
    if x == c then some ([], rest)
    else match splitAtFirst c rest with
      | some (a, b) => some (x :: a, b)
      | none => none

/-- CPython's `_parse_isoformat_time` (Python 3.7–3.10) followed by the
`datetime`/`timezone` constructors' validation: `HH[:MM[:SS[.fff[fff]]]]`
with an optional `±HH:MM[:SS[.ffffff]]` offset (split at the first `-`,
else the first `+`), hour ≤ 23, minute/second ≤ 59, and a non-zero UTC
offset strictly below 24 hours. -/
def isoTimeOk (tstr : List Char) : Bool :=
  decide (2 ≤ tstr.length) &&
  (let split : List Char × Option (List Char) :=
    match splitAtFirst '-' tstr with
    | some (a, b) => (a, some b)
    | none =>
      match splitAtFirst '+' tstr with
      | some (a, b) => (a, some b)
      | none => (tstr, none)
   match hhmmssff? split.1 with
   | none => false
   | some (hh, mm, ss, _) =>
     hh ≤ 23 && mm ≤ 59 && ss ≤ 59 &&
     (match split.2 with
      | none => true
      | some tzstr =>
        (tzstr.length == 5 || tzstr.length == 8 || tzstr.length == 15) &&
        (match hhmmssff? tzstr with
         | none => false
         | some (oh, om, os, ofr) =>
           (oh == 0 && om == 0 && os == 0 && ofr == 0) ||
           decide ((oh * 3600 + om * 60 + os) * 1000000 + ofr < 86400000000))))

/-- Acceptance model of Python 3.7–3.10 `datetime.fromisoformat` on ASCII
digit-formed inputs: characters `0..9` parse the date, character 10 (the
separator, when present) is an arbitrary single character, and characters
from index 11 on, when nonempty, must form a valid time string. -/
def fromisoformat_ok (s : String) : Bool :=
  let cs := s.data
  isoDateOk (cs.take 10) && (let tstr := cs.drop 11; tstr.isEmpty || isoTimeOk tstr)

/-- The `time`/`created` parsing in `Sequence.__init__`:
`datetime.fromisoformat(time_str) if time_str else None`.  `field = none`
models an absent JSON key; the outer `none` models the propagated
`ValueError`; a successful parse is represented by the accepted string. -/
def parse_time (field : Option String) : Option (Option String) :=
  match field with
  | none => some none
  | some s =>
    if s.isEmpty then some none
    else if fromisoformat_ok s then some (some s) else none

/-! ## Specification-side definitions

These express the quantities the spec's sentences talk about, to be compared
with the embedded source functions. -/

/-- Whether every relevant (non-blank, non-comment) line of a listing parses. -/
def allLinesGood (lines : List (List Char)) : Bool :=
  (lines.filter lineRelevant).all fun l => (lineParse l).isSome

/-- The first integer of each relevant line, in line order. -/
def specIndices (lines : List (List Char)) : List Int :=
  (lines.filter lineRelevant).filterMap fun l => (lineParse l).map Prod.fst

/-- The second integer of each relevant line, in line order. -/
def specValues (lines : List (List Char)) : List Int :=
  (lines.filter lineRelevant).filterMap fun l => (lineParse l).map Prod.snd

/-- The characters after the last `/` of a URL: its filename portion. -/
def lastSegment (cs : List Char) : List Char :=
  ((cs.reverse.takeWhile fun c => c != '/').reverse)

/-- Parsing the b-file name back out of a URL: the 6 characters between the
leading `b` and the trailing `.txt` of the filename portion. -/
def bfileSuffixOfUrl (url : String) : List Char :=
  ((lastSegment url.data).drop 1).take 6

/-! ## Theorems -/

/-- Characterisation of the `\d{6}$` part of the `check_id` regex: six digits
followed by the end of the string or a single trailing newline. -/
theorem reDigitsThenEnd_iff (n : Nat) (cs : List Char) :
    reDigitsThenEnd n cs = true ↔
      ∃ ds rest, cs = ds ++ rest ∧ ds.length = n ∧ (∀ c ∈ ds, c.isDigit = true) ∧
        (rest = [] ∨ rest = ['\n']) := by
  induction n generalizing cs with
  | zero =>
    simp only [reDigitsThenEnd, reDollar, Bool.or_eq_true, List.isEmpty_iff, beq_iff_eq]
    constructor
    · intro h
      exact ⟨[], cs, rfl, rfl, by simp, h⟩
    · rintro ⟨ds, rest, hcs, hlen, -, hrest⟩
      rw [List.length_eq_zero] at hlen
      subst hlen
      simpa [hcs] using hrest
  | succ n ih =>
    cases cs with
    | nil =>
      constructor
      · intro h
        simp [reDigitsThenEnd] at h
      · rintro ⟨ds, rest, hcs, hlen, -, -⟩
        rcases List.append_eq_nil.mp hcs.symm with ⟨rfl, -⟩
        simp at hlen
    | cons c rest0 =>
      simp only [reDigitsThenEnd, Bool.and_eq_true, ih]
      constructor
      · rintro ⟨hc, ds, rest, hcs, hlen, hdig, hrest⟩
        refine ⟨c :: ds, rest, by simp [hcs], by simp [hlen], ?_, hrest⟩
        intro x hx
        rcases List.mem_cons.mp hx with rfl | hx
        · exact hc
        · exact hdig x hx
      · rintro ⟨ds, rest, hcs, hlen, hdig, hrest⟩
        cases ds with
        | nil => simp at hlen
        | cons d ds' =>
          obtain ⟨rfl, hrest0⟩ := List.cons.inj (by simpa using hcs)
          refine ⟨hdig c (by simp), ds', rest, hrest0, by simpa using hlen, ?_, hrest⟩
          intro x hx
          exact hdig x (List.mem_cons_of_mem c hx)

/-- C3 (amended): `check_id s` is true iff `s` is the literal `A` followed by
exactly six ASCII decimal digits, optionally followed by one trailing newline
character (Python's `$` matches just before a final newline). -/
theorem check_id_iff (s : String) :
    check_id s = true ↔
      ∃ ds : List Char, ds.length = 6 ∧ (∀ c ∈ ds, c.isDigit = true) ∧
        (s.data = 'A' :: ds ∨ s.data = 'A' :: ds ++ ['\n']) := by
  cases hcs : s.data with
  | nil => simp [check_id, hcs]
  | cons c rest =>
    simp only [check_id, hcs, Bool.and_eq_true, beq_iff_eq, reDigitsThenEnd_iff]
    constructor
    · rintro ⟨rfl, ds, rest', hr, hlen, hdig, hrest⟩
      refine ⟨ds, hlen, hdig, ?_⟩
      rcases hrest with rfl | rfl
      · left; simp [hr]
      · right; simp [hr]
    · rintro ⟨ds, hlen, hdig, h | h⟩
      · obtain ⟨rfl, hrest⟩ := List.cons.inj h
        exact ⟨rfl, ds, [], by simp [hrest], hlen, hdig, Or.inl rfl⟩
      · obtain ⟨rfl, hrest⟩ := List.cons.inj (by simpa using h)
        exact ⟨rfl, ds, ['\n'], by simpa using hrest, hlen, hdig, Or.inr rfl⟩

/-- C3 (counterexample): the claim demands `check_id` be false on any string
with an extra trailing character, but the code accepts a trailing newline. -/
theorem check_id_trailing_newline :
    check_id "A123456\n" = true ∧ "A123456\n" ≠ "A123456" := by
  constructor
  · decide
  · decide

/-- C7: for a valid identifier, the URL builder yields the default webpage
URL for an absent selector, the documented URLs for `json`, `bfile` and
`graph`, and falls back to the default URL (never an error) on any selector
outside the known set. -/
theorem oeis_url_formats (oeis_id : String) (h : check_id oeis_id = true) :
    oeis_url oeis_id none = some (OEIS_URL ++ "/" ++ oeis_id)
  ∧ oeis_url oeis_id (some "json")
      = some (OEIS_URL ++ "/search?q=id:" ++ oeis_id ++ "&fmt=json")
  ∧ oeis_url oeis_id (some "bfile")
      = some (OEIS_URL ++ "/" ++ oeis_id ++ "/"
          ++ ("b" ++ String.mk (oeis_id.data.drop 1) ++ ".txt"))
  ∧ oeis_url oeis_id (some "graph")
      = some (OEIS_URL ++ "/" ++ oeis_id ++ "/graph?png=1")
  ∧ ∀ f : String, f ∉ (["json", "text", "bfile", "graph"] : List String) →
      oeis_url oeis_id (some f) = oeis_url oeis_id none := by
  refine ⟨?_, ?_, ?_, ?_, ?_⟩
  · simp [oeis_url, oeis_bfile, h]
  · simp [oeis_url, oeis_bfile, h]
  · simp [oeis_url, oeis_bfile, h]
  · simp [oeis_url, oeis_bfile, h]
  · intro f hf
    simp only [List.mem_cons, List.mem_singleton, not_or] at hf
    obtain ⟨h1, h2, h3, h4, -⟩ := hf
    simp [oeis_url, oeis_bfile, h, h1, h2, h3, h4]

/-- C7 (witness): the URL builder evaluated at `A000001`. -/
theorem oeis_url_formats_witness :
    oeis_url "A000001" none = some ("https://oeis.org" ++ "/" ++ "A000001")
  ∧ oeis_url "A000001" (some "xml") = oeis_url "A000001" none :=
  ⟨(oeis_url_formats "A000001" (by decide)).1,
   (oeis_url_formats "A000001" (by decide)).2.2.2.2 "xml" (by decide)⟩

/-- C4 (amended): when the listing is unavailable the summary reports
`available = false`, count 0 and `None` for first/last/min/max, while the
filename and URL fields keep the strings derived from the identifier (they
are not `None`, because the `BFile` object always exists). -/
theorem get_bfile_info_unavailable (b : BFile) (h : b.data = none) :
    get_bfile_info b =
      { available := false, filename := some b.filename, url := some b.url,
        length := 0, first := none, last := none, min := none, max := none } := by
  simp [get_bfile_info, h]

/-- C4 (witness): the unavailable summary for `A000045` after a transport
failure. -/
theorem get_bfile_info_unavailable_witness :
    get_bfile_info
        ⟨"A000045", "b000045.txt", "https://oeis.org/A000045/b000045.txt", none, none⟩
      = { available := false, filename := some "b000045.txt",
          url := some "https://oeis.org/A000045/b000045.txt",
          length := 0, first := none, last := none, min := none, max := none } :=
  get_bfile_info_unavailable
    ⟨"A000045", "b000045.txt", "https://oeis.org/A000045/b000045.txt", none, none⟩ rfl

/-- C4 (counterexample): the claim says filename and URL are `None` when the
listing is unavailable, but `Sequence.get_bfile_info` returns the real
filename and URL strings (constructed by `BFile.__init__`, here after a
transport failure on `A000045`). -/
theorem get_bfile_info_unavailable_filename :
    mkBFile "A000045" none
      = some ⟨"A000045", "b000045.txt", "https://oeis.org/A000045/b000045.txt", none, none⟩
  ∧ (get_bfile_info
        ⟨"A000045", "b000045.txt", "https://oeis.org/A000045/b000045.txt", none, none⟩).available
      = false
  ∧ (get_bfile_info
        ⟨"A000045", "b000045.txt", "https://oeis.org/A000045/b000045.txt", none, none⟩).filename
      = some "b000045.txt"
  ∧ (get_bfile_info
        ⟨"A000045", "b000045.txt", "https://oeis.org/A000045/b000045.txt", none, none⟩).url
      = some "https://oeis.org/A000045/b000045.txt" := by
  refine ⟨?_, rfl, rfl, rfl⟩
  decide

/-- `takeWhile` consumes a whole prefix whose elements satisfy `p` and stops
at the first failing element. -/
theorem takeWhile_all_append (p : Char → Bool) (A : List Char) (b : Char) (B : List Char)
    (hA : ∀ a ∈ A, p a = true) (hb : p b = false) :
    (A ++ b :: B).takeWhile p = A := by
  induction A with
  | nil => simp [List.takeWhile_cons, hb]
  | cons a A ih =>
    have ha : p a = true := hA a (by simp)
    simp [List.takeWhile_cons, ha, ih fun x hx => hA x (by simp [hx])]

/-- The filename portion of a slash-separated path is everything after the
last slash. -/
theorem lastSegment_append (xs ys : List Char) (h : ∀ c ∈ ys, (c != '/') = true) :
    lastSegment (xs ++ '/' :: ys) = ys := by
  unfold lastSegment
  have hrev : (xs ++ '/' :: ys).reverse = ys.reverse ++ '/' :: xs.reverse := by
    simp [List.reverse_append]
  rw [hrev, takeWhile_all_append _ _ _ _ (fun a ha => h a (List.mem_reverse.mp ha)) (by decide)]
  simp

/-- An ASCII digit is never a slash. -/
theorem ne_slash_of_isDigit {c : Char} (h : c.isDigit = true) : (c != '/') = true := by
  rcases eq_or_ne c '/' with rfl | hne
  · exact absurd h (by decide)
  · simpa using hne

/-- C8: for a valid identifier (`A` + six digits), building the URL with
`fmt = "bfile"` and parsing the filename portion back (the 6 characters
between `b` and `.txt`) recovers exactly the identifier's 6-digit suffix. -/
theorem bfile_url_roundtrip (oeis_id : String) (ds : List Char)
    (hid : oeis_id.data = 'A' :: ds) (hlen : ds.length = 6)
    (hdig : ∀ c ∈ ds, c.isDigit = true) :
    ∃ u, oeis_url oeis_id (some "bfile") = some u ∧ bfileSuffixOfUrl u = ds := by
  have h6 : reDigitsThenEnd 6 ds = true :=
    (reDigitsThenEnd_iff 6 ds).mpr ⟨ds, [], (List.append_nil ds).symm, hlen, hdig, Or.inl rfl⟩
  have hcheck : check_id oeis_id = true := by
    simp [check_id, hid, h6]
  refine ⟨OEIS_URL ++ "/" ++ oeis_id ++ "/" ++ ("b" ++ String.mk ds ++ ".txt"), ?_, ?_⟩
  · simp [oeis_url, oeis_bfile, hcheck, hid]
  · unfold bfileSuffixOfUrl
    have hdata : (OEIS_URL ++ "/" ++ oeis_id ++ "/" ++ ("b" ++ String.mk ds ++ ".txt")).data
        = (OEIS_URL.data ++ '/' :: oeis_id.data) ++ '/' :: ('b' :: (ds ++ ".txt".data)) := by
      show (OEIS_URL.data ++ "/".data ++ oeis_id.data ++ "/".data
            ++ ("b".data ++ ds ++ ".txt".data)) = _
      simp
    rw [hdata, lastSegment_append]
    · simpa using List.take_left' hlen
    · intro c hc
      rcases List.mem_cons.mp hc with rfl | hc
      · decide
      rcases List.mem_append.mp hc with hc | hc
      · exact ne_slash_of_isDigit (hdig c hc)
      · have hmem : c ∈ ['.', 't', 'x', 't'] := hc
        fin_cases hmem <;> decide

/-- C8 (witness): the round-trip evaluated at `A000045`. -/
theorem bfile_url_roundtrip_witness :
    ∃ u, oeis_url "A000045" (some "bfile") = some u
      ∧ bfileSuffixOfUrl u = ['0', '0', '0', '0', '4', '5'] :=
  bfile_url_roundtrip "A000045" ['0', '0', '0', '0', '4', '5'] rfl rfl (by decide)

/-- The parsing loop equals the declarative description: all relevant lines
good gives the two spec lists, any bad line gives `none`. -/
theorem parseBFileLines_eq (lines : List (List Char)) :
    parseBFileLines lines =
      if allLinesGood lines then some (specIndices lines, specValues lines) else none := by
  induction lines with
  | nil => rfl
  | cons l rest ih =>
    by_cases hrel : lineRelevant l = true
    · cases hpar : lineParse l with
      | none =>
        have hgood : allLinesGood (l :: rest) = false := by
          simp [allLinesGood, List.filter_cons, hrel, hpar]
        simp [parseBFileLines, hrel, hpar, hgood]
      | some p =>
        obtain ⟨iv, vv⟩ := p
        have hgood : allLinesGood (l :: rest) = allLinesGood rest := by
          simp [allLinesGood, List.filter_cons, hrel, hpar]
        have hidx : specIndices (l :: rest) = iv :: specIndices rest := by
          simp [specIndices, List.filter_cons, hrel, hpar]
        have hval : specValues (l :: rest) = vv :: specValues rest := by
          simp [specValues, List.filter_cons, hrel, hpar]
        by_cases hall : allLinesGood rest = true
        · simp [parseBFileLines, hrel, hpar, ih, hall, hgood, hidx, hval]
        · rw [Bool.not_eq_true] at hall
          simp [parseBFileLines, hrel, hpar, ih, hall, hgood]
    · rw [Bool.not_eq_true] at hrel
      have h1 : allLinesGood (l :: rest) = allLinesGood rest := by
        simp [allLinesGood, List.filter_cons, hrel]
      have h2 : specIndices (l :: rest) = specIndices rest := by
        simp [specIndices, List.filter_cons, hrel]
      have h3 : specValues (l :: rest) = specValues rest := by
        simp [specValues, List.filter_cons, hrel]
      simp [parseBFileLines, hrel, h1, h2, h3, ih]

/-- The two spec lists always have the same length. -/
theorem specIndices_length (lines : List (List Char)) :
    (specIndices lines).length = (specValues lines).length := by
  unfold specIndices specValues
  generalize lines.filter lineRelevant = L
  induction L with
  | nil => rfl
  | cons l ls ih =>
    cases hp : lineParse l <;> simp [List.filterMap_cons, hp, ih]

/-- A listing fails to be all good exactly when some relevant line fails to
parse. -/
theorem allLinesGood_false_iff (lines : List (List Char)) :
    allLinesGood lines = false ↔
      ∃ l ∈ lines, lineRelevant l = true ∧ lineParse l = none := by
  constructor
  · intro h
    have h' : ¬ ((lines.filter lineRelevant).all fun l => (lineParse l).isSome) = true := by
      simp [allLinesGood] at h
      simp [h]
    rw [List.all_eq_true] at h'
    push_neg at h'
    obtain ⟨l, hl, hns⟩ := h'
    exact ⟨l, (List.mem_filter.mp hl).1,
      (List.mem_filter.mp hl).2, Option.not_isSome_iff_eq_none.mp (by simpa using hns)⟩
  · rintro ⟨l, hl, hrel, hnone⟩
    rw [Bool.eq_false_iff]
    intro hall
    rw [allLinesGood, List.all_eq_true] at hall
    have := hall l (List.mem_filter.mpr ⟨hl, hrel⟩)
    simp [hnone] at this

/-- C1: b-file parsing is all-or-nothing.  A transport failure yields `none`;
a body parses to `none` exactly when some non-blank, non-comment line fails to
yield two leading integer tokens; otherwise the result is the pair of
equal-length lists holding, in line order, the first and second integer of
each such line. -/
theorem bfile_parse_all_or_nothing (text : String) :
    fetch_bfile_data none = none
  ∧ (fetch_bfile_data (some text) = none ↔
      ∃ l ∈ pySplitlines text.data, lineRelevant l = true ∧ lineParse l = none)
  ∧ ∀ idxs vals, fetch_bfile_data (some text) = some (idxs, vals) →
      idxs.length = vals.length
    ∧ idxs = specIndices (pySplitlines text.data)
    ∧ vals = specValues (pySplitlines text.data) := by
  refine ⟨rfl, ?_, ?_⟩
  · rw [show fetch_bfile_data (some text) = parseBFileLines (pySplitlines text.data) from rfl,
      parseBFileLines_eq, ← allLinesGood_false_iff]
    by_cases hall : allLinesGood (pySplitlines text.data) = true
    · simp [hall]
    · rw [Bool.not_eq_true] at hall
      simp [hall]
  · intro idxs vals h
    rw [show fetch_bfile_data (some text) = parseBFileLines (pySplitlines text.data) from rfl,
      parseBFileLines_eq] at h
    by_cases hall : allLinesGood (pySplitlines text.data) = true
    · rw [if_pos hall] at h
      obtain ⟨h1, h2⟩ := Prod.mk.injEq .. ▸ Option.some.inj h
      exact ⟨h1 ▸ h2 ▸ specIndices_length (pySplitlines text.data), h1.symm ▸ rfl, h2.symm ▸ rfl⟩
    · rw [if_neg hall] at h
      exact absurd h (by simp)

/-- C1 (witness): the characterisation applied to the body `"0 1\n1 1"`. -/
theorem bfile_parse_all_or_nothing_witness :
    ([(0 : Int), 1] : List Int).length = ([(1 : Int), 1] : List Int).length
  ∧ ([(0 : Int), 1] : List Int) = specIndices (pySplitlines ("0 1\n1 1").data)
  ∧ ([(1 : Int), 1] : List Int) = specValues (pySplitlines ("0 1\n1 1").data) :=
  (bfile_parse_all_or_nothing "0 1\n1 1").2.2 [0, 1] [1, 1] (by decide)

/-- Taking a prefix of a zip is zipping the prefixes. -/
theorem zip_take_eq {α β : Type} (n : Nat) (l : List α) (l' : List β) :
    (l.zip l').take n = (l.take n).zip (l'.take n) := by
  induction n generalizing l l' with
  | zero => simp
  | succ n ih =>
    cases l with
    | nil => simp
    | cons a l =>
      cases l' with
      | nil => simp
      | cons b l' => simp [ih]

/-- Truncating inside `plot_data` equals truncating the full pair list: the
x-source choice depends only on the full value list, so the plotted pairs for
prefix `k` are the first `k` pairs of the untruncated plot. -/
theorem plotPairs_take (vs : List Int) (idx : Option (List Int)) (k : Nat) :
    plotPairs vs idx (some k) = (plotPairs vs idx none).take k := by
  unfold plotPairs
  cases idx with
  | none =>
    simp [zip_take_eq k, ← List.map_take, List.take_range, List.length_take]
  | some is =>
    by_cases huse : (!is.isEmpty && is.length == vs.length) = true
    · simp [huse, zip_take_eq k]
    · rw [Bool.not_eq_true] at huse
      simp [huse, zip_take_eq k, ← List.map_take, List.take_range, List.length_take]

/-- C6: with an available non-empty listing, `plot_data` raises a type error
for a non-integer `n`, a value error for a negative integer `n`, and for a
non-negative integer `n` plots exactly the first `n` (index, value) pairs in
original order. -/
theorem plot_data_n_contract (vs : List Int) (idx : Option (List Int)) (hvs : vs ≠ []) :
    plot_data (some vs) idx .otherN = .error .typeErr
  ∧ (∀ i : Int, i < 0 → plot_data (some vs) idx (.intN i) = .error .valueErr)
  ∧ ∀ i : Int, 0 ≤ i →
      plot_data (some vs) idx (.intN i)
        = .ok ((plotPairs vs idx none).take i.toNat, useLogMagnitude (vs.take i.toNat)) := by
  have hvs' : vs.isEmpty = false := by simpa [List.isEmpty_iff] using hvs
  refine ⟨?_, ?_, ?_⟩
  · simp [plot_data, hvs']
  · intro i hi
    simp [plot_data, hvs', hi]
  · intro i hi
    simp [plot_data, hvs', not_lt.mpr hi, plotPairs_take]

/-- C6 (witness): `n = 1` on the listing values `[0, 2]` with indices
`[5, 6]`. -/
theorem plot_data_n_contract_witness :
    plot_data (some [(0 : Int), 2]) (some [(5 : Int), 6]) (.intN 1)
      = .ok ((plotPairs [0, 2] (some [5, 6]) none).take (1 : Int).toNat,
          useLogMagnitude ([(0 : Int), 2].take (1 : Int).toNat)) :=
  (plot_data_n_contract [0, 2] (some [5, 6]) (by decide)).2.2 1 (by decide)

/-- C10: the linear-versus-log-magnitude mode choice depends only on the
plotted prefix: two listings agreeing on their first `n` values produce the
same mode flag under prefix `n`, and if every plotted value fits in a double
the mode is linear no matter what follows position `n`. -/
theorem mode_depends_only_on_plotted_values (vs1 vs2 : List Int)
    (idx1 idx2 : Option (List Int)) (n : Nat)
    (h1 : vs1 ≠ []) (h2 : vs2 ≠ []) (hpre : vs1.take n = vs2.take n) :
    (∃ p1 p2 m, plot_data (some vs1) idx1 (.intN (n : Int)) = .ok (p1, m)
       ∧ plot_data (some vs2) idx2 (.intN (n : Int)) = .ok (p2, m))
  ∧ ((∀ v ∈ vs1.take n, |v| ≤ floatInfoMax) →
      useLogMagnitude (vs1.take n) = false) := by
  have e1 : vs1.isEmpty = false := by simpa [List.isEmpty_iff] using h1
  have e2 : vs2.isEmpty = false := by simpa [List.isEmpty_iff] using h2
  constructor
  · refine ⟨plotPairs vs1 idx1 (some (n : Int).toNat),
      plotPairs vs2 idx2 (some (n : Int).toNat), useLogMagnitude (vs1.take n), ?_, ?_⟩
    · simp [plot_data, e1]
    · rw [show useLogMagnitude (vs1.take n) = useLogMagnitude (vs2.take n) from hpre ▸ rfl]
      simp [plot_data, e2]
  · intro hsmall
    rw [useLogMagnitude, List.any_eq_false]
    intro v hv
    simpa using not_lt.mpr (hsmall v hv)

/-- C10 (witness): a value above the double range at position 1 does not
switch the mode when only the first value is plotted. -/
theorem mode_depends_only_on_plotted_values_witness :
    (∃ p1 p2 m,
        plot_data (some [1, floatInfoMax + 1]) (some [(0 : Int), 1])
            (.intN ((1 : Nat) : Int)) = .ok (p1, m)
      ∧ plot_data (some [(1 : Int)]) none (.intN ((1 : Nat) : Int)) = .ok (p2, m))
  ∧ ((∀ v ∈ [(1 : Int), floatInfoMax + 1].take 1, |v| ≤ floatInfoMax) →
      useLogMagnitude ([(1 : Int), floatInfoMax + 1].take 1) = false) :=
  mode_depends_only_on_plotted_values [1, floatInfoMax + 1] [1] (some [0, 1]) none 1
    (by decide) (by decide) (by decide)

/-- C9: a body of only blank and comment lines parses to the pair of empty
lists (available, not `None`); the summary then reports available with count
0 and `None` stats; and `plot_data` raises the same "no data" value error as
for an unavailable listing. -/
theorem empty_listing_behaviour (text : String) (b : BFile) (idx : Option (List Int)) (n : NArg)
    (hN : ∀ l ∈ pySplitlines text.data, lineRelevant l = false)
    (hb : b.data = some []) :
    fetch_bfile_data (some text) = some ([], [])
  ∧ get_bfile_info b
      = { available := true, filename := some b.filename, url := some b.url,
          length := 0, first := none, last := none, min := none, max := none }
  ∧ plot_data (some []) idx n = .error .noData
  ∧ plot_data none idx n = .error .noData := by
  have hfilter : (pySplitlines text.data).filter lineRelevant = [] :=
    List.filter_eq_nil_iff.mpr fun l hl => by simp [hN l hl]
  refine ⟨?_, ?_, ?_, rfl⟩
  · rw [show fetch_bfile_data (some text) = parseBFileLines (pySplitlines text.data) from rfl,
      parseBFileLines_eq]
    simp [allLinesGood, specIndices, specValues, hfilter]
  · simp [get_bfile_info, hb, listMin, listMax]
  · simp [plot_data]

/-- C9 (witness): the comment-only body `"# c\n\n"` for `A000045`. -/
theorem empty_listing_behaviour_witness :
    fetch_bfile_data (some "# c\n\n") = some ([], [])
  ∧ get_bfile_info
        ⟨"A000045", "b000045.txt", "https://oeis.org/A000045/b000045.txt", some [], some []⟩
      = { available := true, filename := some "b000045.txt",
          url := some "https://oeis.org/A000045/b000045.txt",
          length := 0, first := none, last := none, min := none, max := none }
  ∧ plot_data (some []) none .noneN = .error .noData
  ∧ plot_data none none .noneN = .error .noData :=
  empty_listing_behaviour "# c\n\n"
    ⟨"A000045", "b000045.txt", "https://oeis.org/A000045/b000045.txt", some [], some []⟩
    none .noneN (by decide) rfl

/-- C5 (counterexample): the source parses timestamps with
`datetime.fromisoformat`, which accepts a `T` separator between date and time
and a trailing UTC offset; the claim says those conventions make parsing
fail. -/
theorem parse_time_iso_conventions_accepted :
    parse_time (some "2021-03-04T11:22:33") = some (some "2021-03-04T11:22:33")
  ∧ parse_time (some "2021-03-04 11:22:33+04:00")
      = some (some "2021-03-04 11:22:33+04:00") :=
  ⟨by decide, by decide⟩

/-- C5 (amended): the `time`/`created` fields are `None` when absent (or
empty) and otherwise parsed with `datetime.fromisoformat`: the plain
`"YYYY-MM-DD HH:MM:SS"` convention succeeds, but so do a `T` separator and a
trailing UTC offset; parsing fails only on conventions `fromisoformat`
rejects, such as textual or slash-separated dates. -/
theorem parse_time_amended :
    parse_time none = some none
  ∧ parse_time (some "") = some none
  ∧ parse_time (some "2021-03-04 11:22:33") = some (some "2021-03-04 11:22:33")
  ∧ parse_time (some "2021-03-04T11:22:33") = some (some "2021-03-04T11:22:33")
  ∧ parse_time (some "2021-03-04 11:22:33+04:00")
      = some (some "2021-03-04 11:22:33+04:00")
  ∧ parse_time (some "Mar 04 2021") = none
  ∧ parse_time (some "04/03/2021") = none :=
  ⟨rfl, by decide, by decide, by decide, by decide, by decide, by decide⟩

end OeisTools
